import Mathlib

/-!
Shallow embedding of the `onion` Go middleware package (onion.go).

Modelling choices, used throughout:

* The pair `(rw http.ResponseWriter, r *http.Request)` is the shared mutable
  request/response state threaded through every handler.  We abstract it as a
  single state type `σ`; a handler's observable behaviour is how it transforms
  that state.
* A Go call can panic (e.g. invoking `ServeHTTP` on a nil `http.Handler`, or
  `Use(nil)`).  A computation that may panic yields `Option σ`: `some s` is a
  normal return with final state `s`, `none` is an unrecovered panic.
  `Onion.Use`, whose panic carries the message `"handler cannot be nil"`,
  returns `Except String` instead so the message is kept.
* A Go interface value may be nil, so a stored `onion.Handler` is modelled as
  `Option (Handler σ)` and a stored `http.Handler` (the `next` field of
  `middleware`) as `Option (Middleware σ)`; in the chains produced by `build`
  the `next` field only ever holds a `*middleware` or nil.
-/

namespace OnionGo

/-- Model of the interface `onion.Handler`: `ServeHTTP(rw, r, next)` receives
the current state and the continuation (the `next http.Handler`), and yields
the final state, or `none` if it panics.  `HandlerFunc` is the identity
adapter on this type, mirroring `type HandlerFunc func(...)` whose `ServeHTTP`
just calls the function. -/
abbrev Handler (σ : Type) : Type := σ → (σ → Option σ) → Option σ

/-- Model of `type HandlerFunc` as an adapter: `HandlerFunc(f)` is a `Handler`
object that calls `f`; in the embedding both are the same function type. -/
def HandlerFunc {σ : Type} (f : σ → (σ → Option σ) → Option σ) : Handler σ := f

/-- Model of a plain `http.Handler` / `http.HandlerFunc`: a state transformer
that may panic. -/
abbrev HttpHandler (σ : Type) : Type := σ → Option σ

/-- Model of the struct `middleware { handler Handler; next http.Handler }`.
Both fields can be nil, hence the `Option`s; in chains produced by `build`,
`next` is always a `*middleware` (possibly the zero middleware) except in the
zero middleware itself, where it is the nil interface. -/
inductive Middleware (σ : Type) : Type where
  | mk (handler : Option (Handler σ)) (next : Option (Middleware σ))

/-- Model of `func (m middleware) ServeHTTP(rw, r)`:

    if m.handler == nil { return }
    m.handler.ServeHTTP(rw, r, m.next)

If `m.handler` is nil the call returns at once.  Otherwise the handler runs
with `m.next` as its continuation; if `m.next` is the nil interface, invoking
that continuation is a nil-interface method call, i.e. a panic (`none`). -/
def Middleware.ServeHTTP {σ : Type} : Middleware σ → σ → Option σ
  | .mk none _, s => some s
  | .mk (some h) none, s => h s (fun _ => none)
  | .mk (some h) (some m), s => h s (fun t => m.ServeHTTP t)

/-- Model of `func build(handlers []Handler) middleware`:

    if len(handlers) == 0 { return middleware{} }
    var next middleware
    if len(handlers) > 1 { next = build(handlers[1:]) }
    return middleware{handler: handlers[0], next: &next}

The zero middleware is `.mk none none`; for a non-empty list the `next`
pointer is always non-nil (it is `&next`). -/
def build {σ : Type} : List (Option (Handler σ)) → Middleware σ
  | [] => .mk none none
  | h :: rest =>
    .mk h (some (if rest.isEmpty then .mk none none else build rest))

/-- Model of `type Onion struct { middleware middleware; handlers []Handler }`
(pure view: the handlers field as a value; slice aliasing is modelled
separately by the store-based `OnionH` below). -/
structure Onion (σ : Type) : Type where
  middleware : Middleware σ
  handlers : List (Option (Handler σ))

/-- Model of `func New(handlers ...Handler) *Onion`: stores the given handler
list and eagerly builds the middleware chain.  Note the source performs no
nil check and no copy here. -/
def New {σ : Type} (handlers : List (Option (Handler σ))) : Onion σ :=
  { handlers := handlers, middleware := build handlers }

/-- Model of `func (n *Onion) ServeHTTP(rw, r)`: delegates to the stored
composed middleware. -/
def Onion.ServeHTTP {σ : Type} (n : Onion σ) (s : σ) : Option σ :=
  n.middleware.ServeHTTP s

/-- The panic message of `Onion.Use`. -/
def errNilHandler : String := "handler cannot be nil"

/-- Model of `func (n *Onion) Use(handler Handler)`:

    if handler == nil { panic("handler cannot be nil") }
    n.handlers = append(n.handlers, handler)
    n.middleware = build(n.handlers)

The panic is modelled as `Except.error`; it happens before any field is
assigned, so on the error branch the receiver is unchanged (nothing new is
produced).  On success the updated receiver is returned. -/
def Onion.Use {σ : Type} (n : Onion σ) (handler : Option (Handler σ)) :
    Except String (Onion σ) :=
  if handler.isNone then .error errNilHandler
  else
    let hs := n.handlers ++ [handler]
    .ok { handlers := hs, middleware := build hs }

/-- Model of `UseFunc`: wraps the function with `HandlerFunc` and calls
`Use`.  The wrapped interface value is never nil. -/
def Onion.UseFunc {σ : Type} (n : Onion σ)
    (handlerFunc : σ → (σ → Option σ) → Option σ) : Except String (Onion σ) :=
  n.Use (some (HandlerFunc handlerFunc))

/-- Model of `func Wrap(handler http.Handler) Handler`:

    return HandlerFunc(func(rw, r, next) {
      handler.ServeHTTP(rw, r)
      next.ServeHTTP(rw, r)
    })

The wrapped handler runs first on the shared state; if it returns normally
the continuation is always invoked next, on the state as the wrapped handler
left it.  If the wrapped handler panics, the panic propagates and the
continuation is not reached. -/
def Wrap {σ : Type} (handler : HttpHandler σ) : Handler σ :=
  HandlerFunc (fun s next =>
    match handler s with
    | none => none
    | some t => next t)

/-- Model of `func WrapFunc(handlerFunc http.HandlerFunc) Handler`, whose body
is identical to `Wrap` with `handlerFunc` in place of `handler`. -/
def WrapFunc {σ : Type} (handlerFunc : HttpHandler σ) : Handler σ :=
  HandlerFunc (fun s next =>
    match handlerFunc s with
    | none => none
    | some t => next t)

/-- Model of `UseHandler`: `n.Use(Wrap(handler))`. -/
def Onion.UseHandler {σ : Type} (n : Onion σ) (handler : HttpHandler σ) :
    Except String (Onion σ) :=
  n.Use (some (Wrap handler))

/-- Model of `UseHandlerFunc`: `n.UseHandler(http.HandlerFunc(handlerFunc))`;
the `http.HandlerFunc` conversion is the identity in the embedding. -/
def Onion.UseHandlerFunc {σ : Type} (n : Onion σ) (handlerFunc : HttpHandler σ) :
    Except String (Onion σ) :=
  n.UseHandler handlerFunc

/-- Model of `func (n *Onion) With(handlers ...Handler) *Onion`:

    currentHandlers := make([]Handler, len(n.handlers))
    copy(currentHandlers, n.handlers)
    return New(append(currentHandlers, handlers...)...)

Pure view: the new Onion is built from the concatenation; the receiver is
only read.  (Slice freshness is modelled by `OnionH.With` below.) -/
def Onion.With {σ : Type} (n : Onion σ) (handlers : List (Option (Handler σ))) :
    Onion σ :=
  New (n.handlers ++ handlers)

/-- Model of `func (n *Onion) Handlers() []Handler`: returns the handlers
slice itself. -/
def Onion.Handlers {σ : Type} (n : Onion σ) : List (Option (Handler σ)) :=
  n.handlers

/-!
Store-based model of Go slice aliasing, for the claims about copy semantics.

A Go slice value is a descriptor pointing at a backing array.  `New(s...)`
passes the caller's slice descriptor unchanged (Go spreads an existing slice
without copying), so the Onion's `handlers` field aliases the caller's
backing array; `With`, by contrast, allocates a fresh array with
`make`/`copy` and appends into it.  We model the backing arrays as a store
(list of arrays, indexed by allocation order) and a slice as an index into
it.  `append` is modelled as allocating a fresh array holding the appended
contents: every slice that reaches an `append` in the source is either a
fresh full copy made by `With` (no spare capacity, so Go reallocates) or a
slice no other pipeline aliases, so the reallocating model is observationally
accurate for the operations modelled here.  The `middleware` field is a plain
value inside each Onion — in Go it is a struct stored by value, written only
by operations on that same Onion — so behaviour under `ServeHTTP` depends
only on the Onion value, never on the store.
-/

/-- The store of slice backing arrays: array `i` backs slice reference `i`. -/
def Store (σ : Type) : Type := List (List (Option (Handler σ)))

/-- A Go slice descriptor: a reference into the store. -/
structure SliceRef : Type where
  ref : Nat

/-- Length of a store (number of allocated arrays). -/
def Store.size {σ : Type} (st : Store σ) : Nat := List.length st

/-- Dereference a slice: the contents of its backing array. -/
def Store.read {σ : Type} (st : Store σ) (s : SliceRef) :
    List (Option (Handler σ)) :=
  List.getD st s.ref []

/-- Allocate a fresh backing array holding `content`; returns the new store
and a slice referring to the fresh array. -/
def Store.alloc {σ : Type} (st : Store σ) (content : List (Option (Handler σ))) :
    Store σ × SliceRef :=
  (List.append st [content], ⟨Store.size st⟩)

/-- Overwrite element `i` of the array backing slice `s` — an external
mutation performed by the caller who still holds an aliasing slice. -/
def Store.writeElem {σ : Type} (st : Store σ) (s : SliceRef) (i : Nat)
    (v : Option (Handler σ)) : Store σ :=
  List.set st s.ref (List.set (Store.read st s) i v)

/-- Store-based model of `Onion`: the `handlers` field is a slice descriptor
into the store; `middleware` is a value field as in Go. -/
structure OnionH (σ : Type) : Type where
  middleware : Middleware σ
  handlers : SliceRef

/-- Store-based `New(handlers...)`: the variadic slice is the caller's slice
descriptor, stored without copying; the middleware is built eagerly from the
contents at call time. -/
def NewH {σ : Type} (st : Store σ) (s : SliceRef) : OnionH σ :=
  { handlers := s, middleware := build (st.read s) }

/-- Store-based `Handlers()`: returns the slice descriptor, so the caller
reads whatever the backing array currently holds. -/
def OnionH.Handlers {σ : Type} (n : OnionH σ) (st : Store σ) :
    List (Option (Handler σ)) :=
  st.read n.handlers

/-- Store-based `ServeHTTP`: delegates to the stored middleware value; the
store plays no part. -/
def OnionH.ServeHTTP {σ : Type} (n : OnionH σ) (s : σ) : Option σ :=
  n.middleware.ServeHTTP s

/-- Store-based `With`: `make`+`copy` produce a fresh full array of the
receiver's contents and `append` extends it (reallocating, as the copy has no
spare capacity); the fresh slice goes to `New`.  The receiver's array is only
read. -/
def OnionH.With {σ : Type} (n : OnionH σ) (st : Store σ)
    (handlers : List (Option (Handler σ))) : Store σ × OnionH σ :=
  let fresh := st.alloc (List.append (st.read n.handlers) handlers)
  (fresh.1, NewH fresh.1 fresh.2)

/-- Store-based `Use`: nil check, then `append` (modelled as a fresh
allocation of the appended contents) and an eager rebuild; the updated
receiver carries the new slice and middleware. -/
def OnionH.Use {σ : Type} (n : OnionH σ) (st : Store σ)
    (handler : Option (Handler σ)) : Except String (Store σ × OnionH σ) :=
  if handler.isNone then .error errNilHandler
  else
    let hs := List.append (st.read n.handlers) [handler]
    let fresh := st.alloc hs
    .ok (fresh.1, { handlers := fresh.2, middleware := build hs })

/-- An instrumented interceptor in the sense of the spec: it records the
marker `b`, invokes its continuation exactly once, then records the marker
`a`.  The state is the list of markers recorded so far. -/
def ringHandler {α : Type} (b a : α) : Handler (List α) :=
  fun s k => (k (List.append s [b])).map (fun t => List.append t [a])

/-- Concrete interceptor A for the short-circuit scenario: records 1, then
delegates, then records 4. -/
def hA : Handler (List Nat) := ringHandler 1 4

/-- Concrete interceptor B for the short-circuit scenario: records 2 and
returns without ever invoking its continuation. -/
def hBstop : Handler (List Nat) := fun s _ => some (List.append s [2])

/-- Concrete interceptor C for the short-circuit scenario: records 3, then
delegates. -/
def hC : Handler (List Nat) := fun s k => k (List.append s [3])

/-- Concrete instrumented interceptors for the store-model witnesses. -/
def rhA : Handler (List Nat) := ringHandler 11 12

/-- Second concrete interceptor for the store-model witnesses. -/
def rhB : Handler (List Nat) := ringHandler 21 22

/-- Third concrete interceptor for the store-model witnesses. -/
def rhC : Handler (List Nat) := ringHandler 31 32

/-- A one-array store: the backing array of the caller's slice `⟨0⟩`,
holding the single handler `rhA`. -/
def st0 : Store (List Nat) := [[some rhA]]

/-- The store after `(NewH st0 ⟨0⟩).With st0 [some rhB]`: the parent's array
plus the freshly allocated child array. -/
def st1w : Store (List Nat) := [[some rhA], [some rhA, some rhB]]

/-- The child Onion produced by `(NewH st0 ⟨0⟩).With st0 [some rhB]`. -/
def cw : OnionH (List Nat) :=
  { handlers := ⟨1⟩, middleware := build [some rhA, some rhB] }

/-- The store after additionally `(NewH st0 ⟨0⟩).With st1w [some rhC]`. -/
def st2w : Store (List Nat) :=
  [[some rhA], [some rhA, some rhB], [some rhA, some rhC]]

/-- The sibling Onion produced by `(NewH st0 ⟨0⟩).With st1w [some rhC]`. -/
def dw : OnionH (List Nat) :=
  { handlers := ⟨2⟩, middleware := build [some rhA, some rhC] }

/-- A terminal `http.Handler` for the adapter witness: increments a counter
state. -/
def incHandler : HttpHandler Nat := fun s => some (s + 1)

end OnionGo

namespace OnionGo

/-! Helper lemmas about `build`, `Middleware.ServeHTTP` and the store. -/

/-- Unfolding `build` on a non-empty list: whether or not `rest` is empty,
the `next` pointer holds `build rest` (for empty `rest` the zero middleware
equals `build []`). -/
theorem build_cons {σ : Type} (h : Option (Handler σ))
    (rest : List (Option (Handler σ))) :
    build (h :: rest) = .mk h (some (build rest)) := by
  cases rest <;> rfl

/-- A chain link with a nil handler returns the state unchanged, whatever its
`next` field holds. -/
theorem serve_nil_handler {σ : Type} (nx : Option (Middleware σ)) (s : σ) :
    (Middleware.mk none nx).ServeHTTP s = some s := rfl

/-- Serving a chain whose head handler is present runs that handler with the
rest of the chain as continuation. -/
theorem serve_build_cons {σ : Type} (h : Handler σ)
    (rest : List (Option (Handler σ))) (s : σ) :
    (build (some h :: rest)).ServeHTTP s =
      h s (fun t => (build rest).ServeHTTP t) := by
  rw [build_cons]; rfl

/-- The marker trace of a chain of instrumented interceptors: all the
before-markers in registration order, then all the after-markers in reverse
registration order. -/
theorem serve_build_ring {α : Type} (ms : List (α × α)) (s : List α) :
    (build (ms.map (fun m => some (ringHandler m.1 m.2)))).ServeHTTP s =
      some (s ++ ms.map Prod.fst ++ (ms.reverse.map Prod.snd)) := by
  induction ms generalizing s with
  | nil => simp [build, Middleware.ServeHTTP]
  | cons m ms ih =>
    rw [List.map_cons, serve_build_cons]
    simp only [ringHandler, List.append_eq, ih, Option.map_some]
    simp [List.append_assoc]

/-- Reading the slice just allocated returns the allocated contents. -/
theorem Store.read_alloc_self {σ : Type} (st : Store σ)
    (c : List (Option (Handler σ))) :
    Store.read (st.alloc c).1 (st.alloc c).2 = c := by
  simp only [Store.alloc, Store.read, Store.size, List.append_eq]
  rw [List.getD_append_right st [c] [] st.length (Nat.le_refl _)]
  simp

/-- Allocation does not disturb any previously allocated array. -/
theorem Store.read_alloc_of_lt {σ : Type} (st : Store σ)
    (c : List (Option (Handler σ))) (r : SliceRef) (h : r.ref < st.size) :
    Store.read (st.alloc c).1 r = st.read r := by
  simp only [Store.alloc, Store.read, List.append_eq]
  exact List.getD_append st [c] [] r.ref h

/-- Allocation grows the store by one array. -/
theorem Store.size_alloc {σ : Type} (st : Store σ)
    (c : List (Option (Handler σ))) :
    ((st.alloc c).1).size = st.size + 1 := by
  simp [Store.alloc, Store.size]

/-- Overwriting an element of a live array is visible through every slice
aliasing that array. -/
theorem Store.read_writeElem_self {σ : Type} (st : Store σ) (s : SliceRef)
    (i : Nat) (v : Option (Handler σ)) (h : s.ref < st.size) :
    Store.read (st.writeElem s i v) s = (st.read s).set i v := by
  simp only [Store.writeElem, Store.read]
  have hlen : s.ref <
      (List.set st s.ref ((List.getD st s.ref []).set i v)).length := by
    simpa [Store.size, List.length_set] using h
  rw [List.getD_eq_getElem _ _ hlen, List.getElem_set_self]

/-- The child produced by `With` reads back, through the new store, exactly
the receiver's contents followed by the additions. -/
theorem withH_handlers {σ : Type} (st : Store σ) (o : OnionH σ)
    (hs : List (Option (Handler σ))) :
    ((o.With st hs).2).Handlers (o.With st hs).1 =
      List.append (st.read o.handlers) hs :=
  Store.read_alloc_self st (List.append (st.read o.handlers) hs)

/-- The child produced by `With` is built from the receiver's contents
followed by the additions. -/
theorem withH_middleware {σ : Type} (st : Store σ) (o : OnionH σ)
    (hs : List (Option (Handler σ))) :
    ((o.With st hs).2).middleware =
      build (List.append (st.read o.handlers) hs) := by
  show build (Store.read (st.alloc (List.append (st.read o.handlers) hs)).1
      (st.alloc (List.append (st.read o.handlers) hs)).2) = _
  rw [Store.read_alloc_self]

/-- `With` only allocates; it never writes an existing backing array. -/
theorem withH_preserves_read {σ : Type} (st : Store σ) (o : OnionH σ)
    (hs : List (Option (Handler σ))) (r : SliceRef) (h : r.ref < st.size) :
    Store.read (o.With st hs).1 r = st.read r :=
  Store.read_alloc_of_lt st (List.append (st.read o.handlers) hs) r h

/-- `With` grows the store by exactly one array. -/
theorem withH_size {σ : Type} (st : Store σ) (o : OnionH σ)
    (hs : List (Option (Handler σ))) :
    ((o.With st hs).1).size = st.size + 1 :=
  Store.size_alloc st (List.append (st.read o.handlers) hs)

/-- The child produced by `With` points at the freshly allocated array. -/
theorem withH_ref {σ : Type} (st : Store σ) (o : OnionH σ)
    (hs : List (Option (Handler σ))) :
    ((o.With st hs).2).handlers.ref = st.size := rfl

/-- `Use` on a present handler: appends (into a fresh array) and rebuilds. -/
theorem useH_ok {σ : Type} (st : Store σ) (o : OnionH σ) (h : Handler σ) :
    o.Use st (some h) =
      .ok ((st.alloc (List.append (st.read o.handlers) [some h])).1,
        { handlers := (st.alloc (List.append (st.read o.handlers) [some h])).2,
          middleware :=
            build (List.append (st.read o.handlers) [some h]) }) := rfl

/-- `Use` on a nil handler: aborts with the panic message, touching no
state. -/
theorem useH_none {σ : Type} (st : Store σ) (o : OnionH σ) :
    o.Use st none = .error errNilHandler := rfl

/-- A successful `Use` leaves the returned Onion's middleware in sync with
its handler sequence. -/
theorem use_ok_sync {σ : Type} (p : Onion σ) (h : Option (Handler σ))
    (q : Onion σ) (e : p.Use h = .ok q) :
    q.middleware = build q.handlers := by
  cases h with
  | none => simp [Onion.Use, errNilHandler] at e
  | some h0 =>
    simp only [Onion.Use, Option.isNone_some, Bool.false_eq_true,
      if_false] at e
    cases e
    rfl

end OnionGo

namespace OnionGo

/-! Theorems for the spec claims. -/

/-- C1: for every non-empty sequence of instrumented interceptors (each
records its before-marker, invokes its continuation once, then records its
after-marker), serving the Onion built from that sequence records exactly
the before-markers in registration order followed by the after-markers in
reverse registration order, and returns normally. -/
theorem claim1_ring_order {α : Type} (ms : List (α × α)) (s : List α)
    (_hne : ms ≠ []) :
    (New (ms.map (fun m => some (ringHandler m.1 m.2)))).ServeHTTP s =
      some (s ++ ms.map Prod.fst ++ (ms.reverse.map Prod.snd)) :=
  serve_build_ring ms s

/-- Witness for C1 at the three-interceptor chain with before-markers 0,1,2
and after-markers 3,4,5. -/
theorem claim1_ring_order_witness :
    ([((0 : Nat), (3 : Nat)), (1, 4), (2, 5)] ≠ ([] : List (Nat × Nat)))
    ∧ ((New ([((0 : Nat), (3 : Nat)), (1, 4), (2, 5)].map
          (fun m => some (ringHandler m.1 m.2)))).ServeHTTP [] =
        some ([] ++ [((0 : Nat), (3 : Nat)), (1, 4), (2, 5)].map Prod.fst
          ++ ([((0 : Nat), (3 : Nat)), (1, 4), (2, 5)].reverse.map Prod.snd))) :=
  ⟨by decide, claim1_ring_order [(0, 3), (1, 4), (2, 5)] [] (by decide)⟩

/-- C9: serving an Onion constructed with zero handlers returns the state
unchanged (no observable side effect) and does not fail. -/
theorem claim9_empty_noop {σ : Type} (s : σ) :
    (New ([] : List (Option (Handler σ)))).ServeHTTP s = some s := rfl

/-- C10: a chain link whose stored handler is nil returns immediately with
the state unchanged (no panic), whatever its `next` field holds; hence the
served result of a chain with a nil handler at any position is entirely
independent of the handlers registered after that position — they are
silently skipped. -/
theorem claim10_nil_link_skips_rest {σ : Type} :
    (∀ (nx : Option (Middleware σ)) (s : σ),
        (Middleware.mk none nx).ServeHTTP s = some s)
    ∧ (∀ (pre hs hs2 : List (Option (Handler σ))) (s : σ),
        (New (pre ++ none :: hs)).ServeHTTP s =
          (New (pre ++ none :: hs2)).ServeHTTP s) := by
  refine ⟨fun nx s => rfl, fun pre hs hs2 s => ?_⟩
  show (build (pre ++ none :: hs)).ServeHTTP s =
    (build (pre ++ none :: hs2)).ServeHTTP s
  induction pre generalizing s with
  | nil => rw [List.nil_append, List.nil_append, build_cons, build_cons]; rfl
  | cons p pre ih =>
    rw [List.cons_append, List.cons_append, build_cons, build_cons]
    cases p with
    | none => rfl
    | some h =>
      show h s _ = h s _
      congr 1
      funext t
      exact ih t

/-- C5: `Use(nil)` aborts at once with the panic `"handler cannot be nil"`
(modelled as the error value; the source panics before assigning either
field, so the receiver's handler sequence and composed middleware are left
exactly as they were — in the store model the error branch returns no new
store or Onion, so nothing is mutated). -/
theorem claim5_use_nil_panics {σ : Type} :
    (∀ p : Onion σ, p.Use none = .error errNilHandler)
    ∧ (∀ (st : Store σ) (q : OnionH σ), q.Use st none = .error errNilHandler) :=
  ⟨fun _ => rfl, fun _ _ => rfl⟩

/-- C3 counterexample: construction does NOT fail fast on a nil handler —
`New` applied to a list containing nil returns normally, the produced
pipeline's registered sequence contains the nil handler, and serving it
completes as a no-op instead of aborting. -/
theorem claim3_counterexample :
    ((New [(none : Option (Handler (List Nat)))]).Handlers = [none])
    ∧ ((New [(none : Option (Handler (List Nat)))]).ServeHTTP [] = some []) :=
  ⟨rfl, rfl⟩

/-- C3 amended: neither `New` nor `With` performs a nil check — the produced
pipeline's sequence is exactly the given list, nils included (a nil link is
then skipped at serve time, see C10); only `Use` fails fast on nil. -/
theorem claim3_amended {σ : Type} :
    (∀ hs : List (Option (Handler σ)), (New hs).Handlers = hs)
    ∧ (∀ (p : Onion σ) (hs : List (Option (Handler σ))),
        (p.With hs).Handlers = p.Handlers ++ hs)
    ∧ (∀ p : Onion σ, p.Use none = .error errNilHandler) :=
  ⟨fun _ => rfl, fun _ _ => rfl, fun _ => rfl⟩

/-- C6: after every completed operation the stored composed middleware equals
`build` of the stored handler sequence (eager rebuild; `ServeHTTP` never sees
a stale chain). -/
theorem claim6_rebuild_invariant {σ : Type} :
    (∀ hs : List (Option (Handler σ)),
        (New hs).middleware = build (New hs).handlers)
    ∧ (∀ (p : Onion σ) (h : Option (Handler σ)) (q : Onion σ),
        p.Use h = .ok q → q.middleware = build q.handlers)
    ∧ (∀ (p : Onion σ) (f : σ → (σ → Option σ) → Option σ) (q : Onion σ),
        p.UseFunc f = .ok q → q.middleware = build q.handlers)
    ∧ (∀ (p : Onion σ) (h : HttpHandler σ) (q : Onion σ),
        p.UseHandler h = .ok q → q.middleware = build q.handlers)
    ∧ (∀ (p : Onion σ) (f : HttpHandler σ) (q : Onion σ),
        p.UseHandlerFunc f = .ok q → q.middleware = build q.handlers)
    ∧ (∀ (p : Onion σ) (hs : List (Option (Handler σ))),
        (p.With hs).middleware = build (p.With hs).handlers) :=
  ⟨fun _ => rfl,
   fun p h q e => use_ok_sync p h q e,
   fun p f q e => use_ok_sync p (some (HandlerFunc f)) q e,
   fun p h q e => use_ok_sync p (some (Wrap h)) q e,
   fun p f q e => use_ok_sync p (some (Wrap f)) q e,
   fun _ _ => rfl⟩

/-- Witness for C6 at a concrete `Use` on the empty pipeline. -/
theorem claim6_rebuild_invariant_witness :
    ((New ([] : List (Option (Handler (List Nat))))).Use (some hC) =
        .ok (New [some hC]))
    ∧ ((New [some hC]).middleware = build (New [some hC]).handlers) :=
  ⟨rfl, claim6_rebuild_invariant.2.1 (New []) (some hC) (New [some hC]) rfl⟩

/-- C7: if the middle interceptor B never invokes its continuation (its
result does not depend on the continuation it is given), then serving
[A, B, C] is indistinguishable from serving [A, B] — C never executes — and
the outcome is exactly A run on the initial state with "B with a no-op
continuation" as A's continuation: A's and B's pre-continuation effects plus
whatever A does after B returns. -/
theorem claim7_short_circuit {σ : Type} (A B C : Handler σ)
    (hB : ∀ (t : σ) (k k2 : σ → Option σ), B t k = B t k2) (s : σ) :
    ((New [some A, some B, some C]).ServeHTTP s =
        (New [some A, some B]).ServeHTTP s)
    ∧ ((New [some A, some B, some C]).ServeHTTP s =
        A s (fun t => B t (fun u => some u))) := by
  have e1 : (New [some A, some B, some C]).ServeHTTP s
      = A s (fun t => B t (fun u => (build [some C]).ServeHTTP u)) := rfl
  have e2 : (New [some A, some B]).ServeHTTP s
      = A s (fun t => B t (fun u => some u)) := rfl
  constructor
  · rw [e1, e2]
    congr 1
    funext t
    exact hB t _ _
  · rw [e1]
    congr 1
    funext t
    exact hB t _ _

/-- Witness for C7: A records 1 then 4 around its continuation, B records 2
and short-circuits, C would record 3 but never runs. -/
theorem claim7_short_circuit_witness :
    (∀ (t : List Nat) (k k2 : List Nat → Option (List Nat)),
        hBstop t k = hBstop t k2)
    ∧ (((New [some hA, some hBstop, some hC]).ServeHTTP [] =
          (New [some hA, some hBstop]).ServeHTTP [])
       ∧ ((New [some hA, some hBstop, some hC]).ServeHTTP [] =
          hA [] (fun t => hBstop t (fun u => some u)))) :=
  ⟨fun _ _ _ => rfl, claim7_short_circuit hA hBstop hC (fun _ _ _ => rfl) []⟩

/-- C8: when the wrapped handler returns normally, the `Handler` produced by
`Wrap` (and identically `WrapFunc`) first runs the wrapped handler on the
shared state and then always invokes the continuation on the resulting
state, whatever the wrapped handler did to it. -/
theorem claim8_wrap_always_delegates {σ : Type} (handler : HttpHandler σ)
    (s t : σ) (next : σ → Option σ) (h : handler s = some t) :
    (Wrap handler s next = next t) ∧ (WrapFunc handler s next = next t) := by
  constructor <;> simp [Wrap, WrapFunc, HandlerFunc, h]

/-- Witness for C8 at a concrete terminal handler and continuation. -/
theorem claim8_wrap_witness :
    (incHandler 0 = some 1)
    ∧ ((Wrap incHandler 0 (fun u => some (u + 10)) = (fun u => some (u + 10)) 1)
       ∧ (WrapFunc incHandler 0 (fun u => some (u + 10)) =
          (fun u => some (u + 10)) 1)) :=
  ⟨rfl, claim8_wrap_always_delegates incHandler 0 1 (fun u => some (u + 10)) rfl⟩

/-- C4 counterexample: `New(s...)` does not copy — the Onion aliases the
caller's backing array, so overwriting the caller's element 0 after
construction changes what `Handlers()` returns.  The claim that `Handlers`
is unchanged by such a mutation is false. -/
theorem claim4_counterexample :
    ¬ ((NewH st0 ⟨0⟩).Handlers (st0.writeElem ⟨0⟩ 0 none) =
        (NewH st0 ⟨0⟩).Handlers st0) := by
  intro e
  simp [OnionH.Handlers, Store.read, Store.writeElem, st0, NewH] at e

/-- C4 amended: `New(s...)` stores the caller's slice without copying, so a
later external overwrite of an element of `s` is visible through
`Handlers()`; `ServeHTTP` behaviour is nevertheless unchanged, because the
middleware chain was built eagerly from the contents at construction time
and lives in the Onion value. -/
theorem claim4_amended {σ : Type} (st : Store σ) (s : SliceRef) (i : Nat)
    (v : Option (Handler σ)) (hwf : s.ref < st.size) :
    ((NewH st s).Handlers (st.writeElem s i v) = (st.read s).set i v)
    ∧ ((NewH st s).middleware = build (st.read s))
    ∧ (∀ x, (NewH st s).ServeHTTP x = (build (st.read s)).ServeHTTP x) := by
  refine ⟨?_, rfl, fun _ => rfl⟩
  exact Store.read_writeElem_self st s i v hwf

/-- Witness for C4 (amended) at the one-handler store. -/
theorem claim4_amended_witness :
    ((⟨0⟩ : SliceRef).ref < st0.size)
    ∧ (((NewH st0 ⟨0⟩).Handlers (st0.writeElem ⟨0⟩ 0 none) =
          (st0.read ⟨0⟩).set 0 none)
       ∧ ((NewH st0 ⟨0⟩).middleware = build (st0.read ⟨0⟩))
       ∧ (∀ x, (NewH st0 ⟨0⟩).ServeHTTP x = (build (st0.read ⟨0⟩)).ServeHTTP x)) :=
  ⟨by decide, claim4_amended st0 ⟨0⟩ 0 none (by decide)⟩

/-- C2: `With` hands the child a fresh backing array holding a copy of the
parent's sequence followed by the additions; the parent's sequence (and its
middleware, a value field of the parent that no operation on another Onion
can write) is untouched; a sibling created by a second `With` on the parent
sees only its own additions; and a subsequent `Use` on the child allocates
again without disturbing the parent's or the sibling's sequences — so their
observable `ServeHTTP` behaviour, determined by their own middleware values,
never changes. -/
theorem claim2_with_independent {σ : Type} (st : Store σ) (o : OnionH σ)
    (hs ys : List (Option (Handler σ))) (st1 st2 : Store σ) (c d : OnionH σ)
    (hwf : o.handlers.ref < st.size)
    (h1 : o.With st hs = (st1, c)) (h2 : o.With st1 ys = (st2, d)) :
    (c.Handlers st1 = o.Handlers st ++ hs)
    ∧ (c.middleware = build (o.Handlers st ++ hs))
    ∧ (o.Handlers st1 = o.Handlers st)
    ∧ (d.Handlers st2 = o.Handlers st ++ ys)
    ∧ (d.middleware = build (o.Handlers st ++ ys))
    ∧ (c.Handlers st2 = o.Handlers st ++ hs)
    ∧ (o.Handlers st2 = o.Handlers st)
    ∧ (∀ (h : Option (Handler σ)) (st3 : Store σ) (c2 : OnionH σ),
        c.Use st2 h = .ok (st3, c2) →
          (o.Handlers st3 = o.Handlers st)
          ∧ (d.Handlers st3 = o.Handlers st ++ ys)
          ∧ (c2.middleware = build (c.Handlers st2 ++ [h]))) := by
  have e1 : st1 = (o.With st hs).1 := by rw [h1]
  have e1c : c = (o.With st hs).2 := by rw [h1]
  subst e1
  subst e1c
  have e2 : st2 = (o.With (o.With st hs).1 ys).1 := by rw [h2]
  have e2d : d = (o.With (o.With st hs).1 ys).2 := by rw [h2]
  subst e2
  subst e2d
  have hwf1 : o.handlers.ref < ((o.With st hs).1).size := by
    rw [withH_size]
    exact Nat.lt_succ_of_lt hwf
  have hcref : ((o.With st hs).2).handlers.ref < ((o.With st hs).1).size := by
    rw [withH_ref, withH_size]
    exact Nat.lt_succ_self _
  have g1 : ((o.With st hs).2).Handlers (o.With st hs).1 =
      o.Handlers st ++ hs := withH_handlers st o hs
  have g3 : o.Handlers (o.With st hs).1 = o.Handlers st :=
    withH_preserves_read st o hs o.handlers hwf
  have g4 : ((o.With (o.With st hs).1 ys).2).Handlers
      (o.With (o.With st hs).1 ys).1 = o.Handlers st ++ ys := by
    have := withH_handlers (o.With st hs).1 o ys
    rw [this]
    show (o.Handlers (o.With st hs).1) ++ ys = _
    rw [g3]
  have g5 : ((o.With (o.With st hs).1 ys).2).middleware =
      build (o.Handlers st ++ ys) := by
    rw [withH_middleware]
    show build ((o.Handlers (o.With st hs).1) ++ ys) = _
    rw [g3]
  have g6 : ((o.With st hs).2).Handlers (o.With (o.With st hs).1 ys).1 =
      o.Handlers st ++ hs := by
    show Store.read (o.With (o.With st hs).1 ys).1 ((o.With st hs).2).handlers
      = _
    rw [withH_preserves_read (o.With st hs).1 o ys _ hcref]
    exact g1
  have g7 : o.Handlers (o.With (o.With st hs).1 ys).1 = o.Handlers st := by
    show Store.read (o.With (o.With st hs).1 ys).1 o.handlers = _
    rw [withH_preserves_read (o.With st hs).1 o ys o.handlers hwf1]
    exact g3
  refine ⟨g1, withH_middleware st o hs, g3, g4, g5, g6, g7, ?_⟩
  intro h st3 c2 e
  cases h with
  | none => rw [useH_none] at e; exact absurd e (by simp)
  | some h0 =>
    rw [useH_ok] at e
    rw [Except.ok.injEq, Prod.mk.injEq] at e
    obtain ⟨ea, eb⟩ := e
    subst ea
    subst eb
    have hwf2 : o.handlers.ref < ((o.With (o.With st hs).1 ys).1).size := by
      rw [withH_size]
      exact Nat.lt_succ_of_lt hwf1
    have hdref : ((o.With (o.With st hs).1 ys).2).handlers.ref <
        ((o.With (o.With st hs).1 ys).1).size := by
      simp only [withH_ref, withH_size]
      exact Nat.lt_succ_self _
    refine ⟨?_, ?_, rfl⟩
    · show Store.read (Store.alloc _ _).1 o.handlers = _
      rw [Store.read_alloc_of_lt _ _ o.handlers hwf2]
      exact g7
    · show Store.read (Store.alloc _ _).1
        ((o.With (o.With st hs).1 ys).2).handlers = _
      rw [Store.read_alloc_of_lt _ _ _ hdref]
      exact g4

/-- Witness for C2 at a concrete parent with one handler, extended twice. -/
theorem claim2_with_independent_witness :
    (((NewH st0 ⟨0⟩).handlers.ref < st0.size)
     ∧ ((NewH st0 ⟨0⟩).With st0 [some rhB] = (st1w, cw))
     ∧ ((NewH st0 ⟨0⟩).With st1w [some rhC] = (st2w, dw)))
    ∧ ((cw.Handlers st1w = (NewH st0 ⟨0⟩).Handlers st0 ++ [some rhB])
       ∧ (cw.middleware = build ((NewH st0 ⟨0⟩).Handlers st0 ++ [some rhB]))
       ∧ ((NewH st0 ⟨0⟩).Handlers st1w = (NewH st0 ⟨0⟩).Handlers st0)
       ∧ (dw.Handlers st2w = (NewH st0 ⟨0⟩).Handlers st0 ++ [some rhC])
       ∧ (dw.middleware = build ((NewH st0 ⟨0⟩).Handlers st0 ++ [some rhC]))
       ∧ (cw.Handlers st2w = (NewH st0 ⟨0⟩).Handlers st0 ++ [some rhB])
       ∧ ((NewH st0 ⟨0⟩).Handlers st2w = (NewH st0 ⟨0⟩).Handlers st0)
       ∧ (∀ (h : Option (Handler (List Nat))) (st3 : Store (List Nat))
            (c2 : OnionH (List Nat)),
            cw.Use st2w h = .ok (st3, c2) →
              ((NewH st0 ⟨0⟩).Handlers st3 = (NewH st0 ⟨0⟩).Handlers st0)
              ∧ (dw.Handlers st3 = (NewH st0 ⟨0⟩).Handlers st0 ++ [some rhC])
              ∧ (c2.middleware = build (cw.Handlers st2w ++ [h])))) :=
  ⟨⟨by decide, rfl, rfl⟩,
   claim2_with_independent st0 (NewH st0 ⟨0⟩) [some rhB] [some rhC]
     st1w st2w cw dw (by decide) rfl rfl⟩

end OnionGo
